import Mathlib

/-!
Verification of `scripts/extract-all-data.js` (Printavo split-query extraction
engine): a shallow embedding of its configuration check, GraphQL transport with
retries, cursor pagination, three-way split fetch and merge, resumable
extraction loop and phase state machine, together with theorems settling the
specification claims.

Conventions of the embedding:
* The remote API is an explicit oracle: for each query a function from the
  attempt number (1-based, as in the JS `for` loop) to the outcome of that
  network exchange.  All code is deterministic given the oracle.
* JS exceptions are `Except String`; a rejected promise is `Except.error`.
* JSON objects whose fields the script never inspects are carried as opaque
  association lists (`Node`).
* `undefined`/`null` values are `Option.none`.  GraphQL responses are modelled
  as `result.data` being `Option (OrderField d)` (absent data object) whose
  single order field (`data[type]`) is again an `Option` (null order).
* Wall-clock behaviour (`delay`, retry waits) is recorded as data: the list of
  waits performed and, in the timing model, the absolute issuance times of
  requests as a function of per-attempt network latencies.
-/

namespace Printavo

/-! ## Configuration defaults (extract-all-data.js lines 44-48, config.example.js) -/

def RATE_LIMIT_DELAY : Nat := 650

def RETRY_DELAY : Nat := 5000

def MAX_RETRIES : Nat := 3

/-- The placeholder e-mail shipped in `config.example.js` and tested at
startup (`CONFIG.PRINTAVO_EMAIL === 'your-email@example.com'`). -/
def emailPlaceholder : String := "your-email@example.com"

/-- The placeholder API token shipped in `config.example.js`
(`PRINTAVO_TOKEN: 'your-api-token-here'`). -/
def tokenPlaceholder : String := "your-api-token-here"

/-- The credential fields of `config.js`.  A missing or empty (JS-falsy)
value is modelled as the empty string. -/
structure ConfigJs where
  email : String
  token : String
  deriving DecidableEq, Repr

/-- The startup credential check (lines 38-42):
`!CONFIG.PRINTAVO_EMAIL || !CONFIG.PRINTAVO_TOKEN ||
 CONFIG.PRINTAVO_EMAIL === 'your-email@example.com'` makes the process
print an error and `process.exit(1)`. -/
def credentialsRejected (c : ConfigJs) : Bool :=
  c.email == "" || c.token == "" || c.email == emailPlaceholder

/-! ## Transport: one exchange and `graphqlRequest` (lines 280-316) -/

/-- Outcome of one network exchange of `graphqlRequest`:
* `netError`: `fetch` itself rejected (network error / timeout);
* `httpError`: `!response.ok` (non-2xx status);
* `body errors data`: a parsed JSON body with its `errors` array (empty list
  for no errors) and its `data` member (`none` when absent/null). -/
inductive Exchange (α : Type) where
  | netError (msg : String)
  | httpError (status : Nat) (text : String)
  | body (errors : List String) (data : Option α)
  deriving DecidableEq

/-- The body of one iteration of the attempt loop: throw on `!response.ok`,
throw on `result.errors && !result.data`, otherwise return `result.data`. -/
def oneAttempt {α : Type} : Exchange α → Except String (Option α)
  | .netError msg => .error msg
  | .httpError status text => .error ("HTTP " ++ toString status ++ ": " ++ text)
  | .body errors data =>
      if !errors.isEmpty && data.isNone then
        .error ("GraphQL: " ++ String.intercalate ", " errors)
      else
        .ok data

/-- What a call of `graphqlRequest` did: its returned/thrown value, the number
of attempts made (the value of `attempt` on the last iteration) and the list
of retry waits `RETRY_DELAY * attempt` performed between attempts. -/
structure ReqTrace (α : Type) where
  result : Except String (Option α)
  attempts : Nat
  waits : List Nat

/-- The attempt loop of `graphqlRequest`, at iteration `attempt` with
`remaining = retries - attempt + 1` iterations left to run (so the loop-exit
case `remaining = 0` is only reachable with `retries = 0`, where the JS
function falls off the loop and resolves to `undefined` after zero
attempts): on success return the data; on failure, if this is not the last
iteration (`attempt < retries`), wait `RETRY_DELAY * attempt` and run the
next attempt, else rethrow. -/
def graphqlLoop {α : Type} (oracle : Nat → Exchange α) :
    Nat → Nat → ReqTrace α
  | attempt, 0 => ⟨.ok none, attempt - 1, []⟩
  | attempt, remaining + 1 =>
      match oneAttempt (oracle attempt) with
      | .ok d => ⟨.ok d, attempt, []⟩
      | .error e =>
          if remaining = 0 then
            ⟨.error e, attempt, []⟩
          else
            let t := graphqlLoop oracle (attempt + 1) remaining
            ⟨t.result, t.attempts, RETRY_DELAY * attempt :: t.waits⟩

/-- `graphqlRequest(query, variables, retries)` (lines 280-316).  The query
and variables are baked into the oracle; the loop starts at `attempt = 1`. -/
def graphqlRequest {α : Type} (oracle : Nat → Exchange α) (retries : Nat) :
    ReqTrace α :=
  graphqlLoop oracle 1 retries

/-! ## Response data model

Only the parts of the JSON the script inspects are structured; every other
field is carried opaquely as a key/value list. -/

/-- An opaque JSON object: fields the script never looks into. -/
abbrev Node := List (String × String)

/-- A GraphQL connection as requested by the split queries: just its
`nodes` array (no `pageInfo` is requested inside an order). -/
structure Conn (α : Type) where
  nodes : List α
  deriving DecidableEq

/-- An imprint node of `GET_ORDER_LINE_ITEMS`: opaque scalar fields plus the
`mockups(first: 5)` connection (`none` when the field is null). -/
structure Imprint where
  fields : Node
  mockups : Option (Conn Node)
  deriving DecidableEq

/-- A line-item node: opaque scalar fields plus its `mockups(first: 5)`. -/
structure LineItem where
  fields : Node
  mockups : Option (Conn Node)
  deriving DecidableEq

/-- A `lineItemGroups` node with its `imprints(first: 10)` and
`lineItems(first: 15)` connections. -/
structure LineItemGroup where
  fields : Node
  imprints : Option (Conn Imprint)
  lineItems : Option (Conn LineItem)
  deriving DecidableEq

/-- The order object returned by `GET_ORDER_HEADER`: its `id`, `visualId`
and the remaining scalar/address/contact fields, opaque. -/
structure HeaderDoc where
  id : String
  visualId : String
  fields : Node
  deriving DecidableEq

/-- The order object returned by `GET_ORDER_LINE_ITEMS`. -/
structure LineItemsDoc where
  id : String
  lineItemGroups : Option (Conn LineItemGroup)
  deriving DecidableEq

/-- The order object returned by `GET_ORDER_FILES_FINANCIAL`. -/
structure FilesDoc where
  id : String
  productionFiles : Option (Conn Node)
  fees : Option (Conn Node)
  expenses : Option (Conn Node)
  tasks : Option (Conn Node)
  transactions : Option (Conn Node)
  deriving DecidableEq

/-- The `data` object of an order query holds one field, `data[type]`
(`invoice` or `quote`), which may itself be null. -/
structure OrderField (α : Type) where
  order : Option α
  deriving DecidableEq

/-- The merged order object built by `fetchOrderData` (lines 369-377):
`{...header, lineItemGroups, productionFiles, fees, expenses, tasks,
transactions}`.  The header part is `Option`-shaped because spreading a
null/undefined `header` contributes no fields. -/
structure OrderData where
  id : Option String
  visualId : Option String
  headerFields : Node
  lineItemGroups : Option (Conn LineItemGroup)
  productionFiles : Option (Conn Node)
  fees : Option (Conn Node)
  expenses : Option (Conn Node)
  tasks : Option (Conn Node)
  transactions : Option (Conn Node)
  deriving DecidableEq

/-- The object-literal merge of lines 369-377.  It is a plain union of
fields: no comparison of the three documents' ids is performed, and the
`id` fields of the line-items and files documents are discarded. -/
def mergeOrderData (h : Option HeaderDoc) (l : LineItemsDoc) (f : FilesDoc) :
    OrderData where
  id := h.map HeaderDoc.id
  visualId := h.map HeaderDoc.visualId
  headerFields := (h.map HeaderDoc.fields).getD []
  lineItemGroups := l.lineItemGroups
  productionFiles := f.productionFiles
  fees := f.fees
  expenses := f.expenses
  tasks := f.tasks
  transactions := f.transactions

/-- Result of `countFiles` (lines 245-274). -/
structure FileCounts where
  productionFiles : Nat
  lineItemMockups : Nat
  imprintMockups : Nat
  deriving DecidableEq

/-- Number of mockup nodes of one line item / imprint
(`item.mockups?.nodes.length`, 0 when absent). -/
def mockupCount (m : Option (Conn Node)) : Nat :=
  match m with
  | some c => c.nodes.length
  | none => 0

/-- `countFiles(data)` (lines 245-274): counts production-file nodes and the
mockup nodes of every line item and every imprint of every group.  The JS
accumulation loops are written as sums over the same collections. -/
def countFiles (d : OrderData) : FileCounts where
  productionFiles :=
    match d.productionFiles with
    | some c => c.nodes.length
    | none => 0
  lineItemMockups :=
    match d.lineItemGroups with
    | some gs =>
        (gs.nodes.map (fun g =>
          match g.lineItems with
          | some its => (its.nodes.map (fun it => mockupCount it.mockups)).sum
          | none => 0)).sum
    | none => 0
  imprintMockups :=
    match d.lineItemGroups with
    | some gs =>
        (gs.nodes.map (fun g =>
          match g.imprints with
          | some ims => (ims.nodes.map (fun im => mockupCount im.mockups)).sum
          | none => 0)).sum
    | none => 0

/-! ## Split fetch (`fetchOrderData`, lines 352-378) -/

/-- The three per-order query endpoints of the remote, as attempt oracles
parameterized the way the queries are: by the order type (`"invoice"` or
`"quote"`, choosing `GET_ORDER_*` query text) and the Printavo internal id. -/
structure Remote where
  header : String → String → Nat → Exchange (OrderField HeaderDoc)
  lineItems : String → String → Nat → Exchange (OrderField LineItemsDoc)
  files : String → String → Nat → Exchange (OrderField FilesDoc)

/-- `fetchOrderData(type, printavoId)` (lines 352-378): runs the three
sub-queries through `graphqlRequest` (`Promise.all`; the interleaved `delay`
staggering is wall-clock only and is modelled separately), then merges.
If any sub-request rejects, the whole call rejects (`Promise.all`; the JS
rejection is the first in time, here represented by the header-first error).
Accessing `data[type]` on an absent `data`, or `.lineItemGroups` /
`.productionFiles` on a null order, throws a `TypeError`. -/
def fetchOrderData (r : Remote) (type printavoId : String) :
    Except String OrderData :=
  match (graphqlRequest (r.header type printavoId) MAX_RETRIES).result with
  | .error e => .error e
  | .ok hd =>
      match (graphqlRequest (r.lineItems type printavoId) MAX_RETRIES).result with
      | .error e => .error e
      | .ok ld =>
          match (graphqlRequest (r.files type printavoId) MAX_RETRIES).result with
          | .error e => .error e
          | .ok fd =>
              match hd, ld, fd with
              | some hw, some lw, some fw =>
                  match lw.order, fw.order with
                  | some l, some f => .ok (mergeOrderData hw.order l f)
                  | _, _ => .error "TypeError: order is null"
              | _, _, _ => .error "TypeError: data is undefined"

/-! ## Catalog walker (`fetchAllOrderIds`, lines 318-350) -/

/-- One `{ id visualId }` node of the listing queries. -/
structure OrderRef where
  id : String
  visualId : String
  deriving DecidableEq

/-- `pageInfo { hasNextPage endCursor }`. -/
structure PageInfo where
  hasNextPage : Bool
  endCursor : Option String
  deriving DecidableEq

/-- The connection returned by `ListInvoices` / `ListQuotes`. -/
structure ListConn where
  nodes : List OrderRef
  pageInfo : PageInfo
  totalNodes : Nat
  deriving DecidableEq

/-- A listing endpoint: an attempt oracle per cursor value (`none` is the
initial `cursor = null`). -/
abbrev Listing := Option String → Nat → Exchange (OrderField ListConn)

/-- The `while (hasMore)` loop of `fetchAllOrderIds`.  `fuel` bounds the
number of iterations so the walker is total; running out of fuel is reported
as an error (the JS loop would simply still be running).  A failed page
request propagates (no catch inside the walker); `orders.nodes` on an
absent/null connection throws. -/
def fetchIdsGo (listing : Listing) (fuel : Nat) (acc : List OrderRef)
    (cursor : Option String) : Except String (List OrderRef) :=
  match fuel with
  | 0 => .error "out of fuel"
  | fuel + 1 =>
      match (graphqlRequest (listing cursor) MAX_RETRIES).result with
      | .error e => .error e
      | .ok none => .error "TypeError: data is undefined"
      | .ok (some w) =>
          match w.order with
          | none => .error "TypeError: orders is null"
          | some conn =>
              let acc := acc ++ conn.nodes
              if conn.pageInfo.hasNextPage then
                fetchIdsGo listing fuel acc conn.pageInfo.endCursor
              else
                .ok acc

/-- `fetchAllOrderIds(type)` (lines 318-350): walk the cursor chain from
`cursor = null`, `hasMore = true`, collecting `{id, visualId}` pairs.  The
initial `hasMore = true` means the first page is always fetched. -/
def fetchAllOrderIds (listing : Listing) (fuel : Nat) :
    Except String (List OrderRef) :=
  fetchIdsGo listing fuel [] none

/-- `listing` serves the page list `pages` starting from `cursor`: each page
is returned successfully on the first attempt, its `hasNextPage` is true
exactly when more pages follow, and its `endCursor` leads to the rest.
This is the well-formed paginated catalog of the spec. -/
inductive ServesFrom (listing : Listing) :
    Option String → List ListConn → Prop where
  | last (cursor : Option String) (p : ListConn)
      (hserve : listing cursor 1 = .body [] (some ⟨some p⟩))
      (hlast : p.pageInfo.hasNextPage = false) :
      ServesFrom listing cursor [p]
  | cons (cursor : Option String) (p : ListConn) (rest : List ListConn)
      (hserve : listing cursor 1 = .body [] (some ⟨some p⟩))
      (hnext : p.pageInfo.hasNextPage = true)
      (hrest : ServesFrom listing p.pageInfo.endCursor rest) :
      ServesFrom listing cursor (p :: rest)

/-! ## On-disk state: order records, progress checkpoint, error ledger -/

/-- Key/value store for one output directory, keyed by file name
(`${visualId}.json`).  `fs.writeFileSync` replaces an existing file. -/
def listGet {α : Type} (l : List (String × α)) (k : String) : Option α :=
  match l with
  | [] => none
  | (k', v) :: t => if k' = k then some v else listGet t k

def listSet {α : Type} (l : List (String × α)) (k : String) (v : α) :
    List (String × α) :=
  match l with
  | [] => [(k, v)]
  | (k', v') :: t => if k' = k then (k, v) :: t else (k', v') :: listSet t k v

/-- The saved order JSON (lines 414-420):
`{extractedAt, type, printavoId, visualId, ...orderData}`.  Because the
spread comes last, a header-provided `visualId` overrides the catalog one. -/
structure SavedOrder where
  extractedAt : String
  type : String
  printavoId : String
  visualId : String
  data : OrderData
  deriving DecidableEq

/-- Build the `outputData` object for one fetched order. -/
def mkOutputData (now type : String) (o : OrderRef) (d : OrderData) :
    SavedOrder where
  extractedAt := now
  type := type
  printavoId := o.id
  visualId := d.visualId.getD o.visualId
  data := d

/-- The two record directories, `data/invoices` and `data/quotes`. -/
structure Store where
  invoices : List (String × SavedOrder)
  quotes : List (String × SavedOrder)
  deriving DecidableEq

/-- `orderExists(type, visualId)` (lines 235-238). -/
def orderExists (st : Store) (type visualId : String) : Bool :=
  if type = "invoice" then (listGet st.invoices visualId).isSome
  else (listGet st.quotes visualId).isSome

/-- `saveOrder(type, visualId, data)` (lines 240-243). -/
def saveOrder (st : Store) (type visualId : String) (d : SavedOrder) : Store :=
  if type = "invoice" then
    ⟨listSet st.invoices visualId d, st.quotes⟩
  else
    ⟨st.invoices, listSet st.quotes visualId d⟩

/-- Read a record back, from the partition `saveOrder` uses for `type`. -/
def storeGet (st : Store) (type visualId : String) : Option SavedOrder :=
  if type = "invoice" then listGet st.invoices visualId
  else listGet st.quotes visualId

/-- The progress checkpoint object (lines 201-212). -/
structure Progress where
  phase : Option String
  lastProcessedVisualId : Option String
  invoicesProcessed : Nat
  quotesProcessed : Nat
  totalProductionFiles : Nat
  totalLineItemMockups : Nat
  totalImprintMockups : Nat
  errors : Nat
  startedAt : String
  lastUpdated : String
  deriving DecidableEq

/-- The fresh progress object built by `loadProgress` when no checkpoint can
be read (lines 201-212); `now` stands for `new Date().toISOString()`. -/
def initialProgress (now : String) : Progress where
  phase := some "invoices"
  lastProcessedVisualId := none
  invoicesProcessed := 0
  quotesProcessed := 0
  totalProductionFiles := 0
  totalLineItemMockups := 0
  totalImprintMockups := 0
  errors := 0
  startedAt := now
  lastUpdated := now

/-- `loadProgress()` (lines 193-213).  The checkpoint file is given as
`none` when `fs.existsSync` is false, `some none` when reading or
`JSON.parse` throws, and `some (some p)` when it parses to a progress
object; the parsed object is returned as-is, everything else falls through
to the fresh initial state. -/
def loadProgress (raw : Option (Option Progress)) (now : String) : Progress :=
  match raw with
  | some (some p) => p
  | _ => initialProgress now

/-- One entry of `errors.json` (`saveError`, lines 229-233). -/
structure ErrorRecord where
  type : String
  visualId : String
  printavoId : String
  error : String
  retries : Nat
  timestamp : String
  deriving DecidableEq

/-- The whole mutable state threaded through the extraction run:
the record store, the in-memory progress object, the progress file
(`none` before the first `saveProgress`), the error ledger, the
`processed`/`skipped` counters local to `extractOrders`, and a trace of the
orders for which `fetchOrderData` was invoked (each such invocation issues
the three sub-requests). -/
structure ExtState where
  store : Store
  progress : Progress
  progressFile : Option Progress
  errorsFile : List ErrorRecord
  processed : Nat
  skipped : Nat
  fetches : List OrderRef
  deriving DecidableEq

/-- `saveProgress(progress)` (lines 215-218): stamp `lastUpdated` and write
the file. -/
def saveProgressSt (now : String) (s : ExtState) : ExtState :=
  let p := { s.progress with lastUpdated := now }
  { s with progress := p, progressFile := some p }

/-! ## Extraction loop (`extractOrders`, lines 384-461) -/

/-- The body of the `for (const order of orderIds)` loop.  An existing
record short-circuits with `continue`; otherwise the order is fetched
(recorded in `fetches`): on success the merged record is saved and the
progress counters advance (`saveProgress` every 10th new order); on any
thrown error one ledger entry is appended, `progress.errors` increments
and `saveProgress` runs.  The `if (!orderData)` test of line 408 can never
throw because `fetchOrderData` only resolves to an object literal. -/
def extractStep (r : Remote) (type now : String) (s : ExtState) (o : OrderRef) :
    ExtState :=
  if orderExists s.store type o.visualId then
    { s with skipped := s.skipped + 1 }
  else
    let s1 := { s with fetches := s.fetches ++ [o] }
    match fetchOrderData r type o.id with
    | .ok d =>
        let fc := countFiles d
        let saved := mkOutputData now type o d
        let p := s1.progress
        let p1 := { p with
          lastProcessedVisualId := some o.visualId
          invoicesProcessed :=
            if type = "invoice" then p.invoicesProcessed + 1
            else p.invoicesProcessed
          quotesProcessed :=
            if type = "quote" then p.quotesProcessed + 1 else p.quotesProcessed
          totalProductionFiles := p.totalProductionFiles + fc.productionFiles
          totalLineItemMockups := p.totalLineItemMockups + fc.lineItemMockups
          totalImprintMockups := p.totalImprintMockups + fc.imprintMockups }
        let s2 := { s1 with
          store := saveOrder s1.store type o.visualId saved
          processed := s1.processed + 1
          progress := p1 }
        if s2.processed % 10 = 0 then saveProgressSt now s2 else s2
    | .error e =>
        let entry : ErrorRecord := ⟨type, o.visualId, o.id, e, MAX_RETRIES, now⟩
        saveProgressSt now
          { s1 with
            errorsFile := s1.errorsFile ++ [entry]
            progress := { s1.progress with errors := s1.progress.errors + 1 } }

/-- The loop itself, from a given state. -/
def extractGo (r : Remote) (type now : String) (ids : List OrderRef)
    (s : ExtState) : ExtState :=
  ids.foldl (extractStep r type now) s

/-- `extractOrders(type, orderIds, progress)`: the loop with the local
`processed`/`skipped` counters starting at 0. -/
def extractOrders (r : Remote) (type now : String) (ids : List OrderRef)
    (s : ExtState) : ExtState :=
  extractGo r type now ids { s with processed := 0, skipped := 0 }

/-! ## `main()` (lines 463-532): phase state machine -/

/-- Everything `main` talks to: the API-verification test query
(`query { invoices(first: 1) { totalNodes } }`, whose data is
`{ invoices: { totalNodes } }`), the two listing endpoints and the
per-order endpoints. -/
structure Env where
  verify : Nat → Exchange (OrderField Nat)
  listInvoices : Listing
  listQuotes : Listing
  order : Remote

/-- `summary.json` (lines 502-513); the wall-clock `duration` string is not
modelled. -/
structure Summary where
  completedAt : String
  invoicesExtracted : Nat
  quotesExtracted : Nat
  totalOrders : Nat
  totalProductionFiles : Nat
  totalLineItemMockups : Nat
  totalImprintMockups : Nat
  totalFiles : Nat
  errors : Nat
  deriving DecidableEq

def mkSummary (now : String) (p : Progress) : Summary where
  completedAt := now
  invoicesExtracted := p.invoicesProcessed
  quotesExtracted := p.quotesProcessed
  totalOrders := p.invoicesProcessed + p.quotesProcessed
  totalProductionFiles := p.totalProductionFiles
  totalLineItemMockups := p.totalLineItemMockups
  totalImprintMockups := p.totalImprintMockups
  totalFiles :=
    p.totalProductionFiles + p.totalLineItemMockups + p.totalImprintMockups
  errors := p.errors

/-- Outcome of the process: the exit status (`true` for exit code 0), the
final state, and the summary file if one was written. -/
structure MainResult where
  exitSuccess : Bool
  state : ExtState
  summary : Option Summary
  deriving DecidableEq

def setPhase (s : ExtState) (ph : String) : ExtState :=
  { s with progress := { s.progress with phase := some ph } }

/-- The quotes half of `main` (lines 492-498) followed by the summary
(lines 500-525): runs only when the phase reached `quotes`.  A listing
failure is caught by the outer `try` (line 527): `saveProgress` then
`process.exit(1)`. -/
def mainQuotes (env : Env) (fuel : Nat) (now : String) (s : ExtState) :
    MainResult :=
  if s.progress.phase = some "quotes" then
    match fetchAllOrderIds env.listQuotes fuel with
    | .error _ => ⟨false, saveProgressSt now s, none⟩
    | .ok ids =>
        let s1 := saveProgressSt now
          (setPhase (extractOrders env.order "quote" now ids s) "complete")
        ⟨true, s1, some (mkSummary now s1.progress)⟩
  else
    ⟨true, s, some (mkSummary now s.progress)⟩

/-- `main()` from the point the progress object is loaded (the loaded
progress sits in `s.progress`): verify API access (any failure, including a
missing `data` or null `invoices` field making `testData.invoices.totalNodes`
throw, exits with code 1 before any extraction), then run the invoice phase
when `progress.phase === 'invoices' || !progress.phase`, advance the phase,
and continue with the quotes half. -/
def runMain (env : Env) (fuel : Nat) (now : String) (s : ExtState) :
    MainResult :=
  match (graphqlRequest env.verify MAX_RETRIES).result with
  | .error _ => ⟨false, s, none⟩
  | .ok none => ⟨false, s, none⟩
  | .ok (some w) =>
      match w.order with
      | none => ⟨false, s, none⟩
      | some _ =>
          if s.progress.phase = some "invoices" ∨ s.progress.phase = none then
            match fetchAllOrderIds env.listInvoices fuel with
            | .error _ => ⟨false, saveProgressSt now s, none⟩
            | .ok ids =>
                let s1 := saveProgressSt now
                  (setPhase (extractOrders env.order "invoice" now ids s)
                    "quotes")
                mainQuotes env fuel now s1
          else
            mainQuotes env fuel now s

/-- The whole process: the startup credential check (lines 38-42) runs at
module load, before `main` issues any request. -/
def startProcess (c : ConfigJs) (env : Env) (fuel : Nat) (now : String)
    (s : ExtState) : MainResult :=
  if credentialsRejected c then ⟨false, s, none⟩ else runMain env fuel now s

/-- Position of a phase value in the forward order
`invoices → quotes → complete`; a missing phase is treated as the initial
one, like `!progress.phase` in `main`. -/
def phaseRank (ph : Option String) : Nat :=
  if ph = some "quotes" then 1 else if ph = some "complete" then 2 else 0

/-! ## Timing model of `fetchOrderData`

`fetchOrderData` launches its three sub-queries concurrently
(`Promise.all`), the second behind `delay(RATE_LIMIT_DELAY)` and the third
behind `delay(RATE_LIMIT_DELAY * 2)` (lines 354-362).  Within one
`graphqlRequest`, attempt `n + 1` is issued `RETRY_DELAY * n` after attempt
`n` completes.  Given the per-attempt network latency and which attempts
fail, the absolute issuance time of every request of the call is
determined; this section computes those times. -/

/-- Issuance times of the attempts of one `graphqlRequest` call whose first
attempt is issued at `start`: if attempt `attempt` fails and is not the
last allowed one, the next is issued after its latency plus the retry wait
`RETRY_DELAY * attempt`.  `remaining` counts iterations as in
`graphqlLoop`. -/
def attemptTimes (fails : Nat → Bool) (lat : Nat → Nat) :
    Nat → Nat → Nat → List Nat
  | _, _, 0 => []
  | attempt, start, remaining + 1 =>
      if fails attempt && remaining != 0 then
        start ::
          attemptTimes fails lat (attempt + 1)
            (start + lat attempt + RETRY_DELAY * attempt) remaining
      else [start]

/-- The issuance times of every request made by one `fetchOrderData` call:
the header sub-query starts at time 0, the line-items one at
`RATE_LIMIT_DELAY`, the files one at `RATE_LIMIT_DELAY * 2`, each then
retrying on its own schedule. -/
def fetchOrderDataReqTimes (failsH failsL failsF : Nat → Bool)
    (latH latL latF : Nat → Nat) : List Nat :=
  attemptTimes failsH latH 1 0 MAX_RETRIES ++
    attemptTimes failsL latL 1 RATE_LIMIT_DELAY MAX_RETRIES ++
      attemptTimes failsF latF 1 (RATE_LIMIT_DELAY * 2) MAX_RETRIES

/-- Whether every pair of request times is at least `RATE_LIMIT_DELAY`
apart — the globally enforced minimum inter-call spacing the spec
requires. -/
def pacedBool : List Nat → Bool
  | [] => true
  | t :: rest =>
      rest.all (fun u => RATE_LIMIT_DELAY ≤ Nat.dist t u) && pacedBool rest

/-! ## Concrete fixtures for witnesses and counterexamples -/

/-- A header document with internal id `"A"` and visual id `"103"`. -/
def headerDocA : HeaderDoc := ⟨"A", "103", [("nickname", "HOODIES")]⟩

/-- A line item carrying one mockup. -/
def demoLineItem : LineItem := ⟨[("description", "tee")], some ⟨[[("id", "m1")]]⟩⟩

/-- A line-item group with no imprints and one line item. -/
def demoGroup : LineItemGroup := ⟨[("position", "1")], some ⟨[]⟩, some ⟨[demoLineItem]⟩⟩

/-- A line-items document carrying the mismatched internal id `"B"`. -/
def lineDocB : LineItemsDoc := ⟨"B", some ⟨[demoGroup]⟩⟩

/-- A line-items document consistent with `headerDocA`. -/
def lineDocA : LineItemsDoc := ⟨"A", some ⟨[demoGroup]⟩⟩

/-- A files/financial document with one production file. -/
def filesDocA : FilesDoc :=
  ⟨"A", some ⟨[[("name", "art.pdf")]]⟩, some ⟨[]⟩, some ⟨[]⟩, some ⟨[]⟩, some ⟨[]⟩⟩

/-- A remote whose line-items sub-query answers for a different order (`"B"`) than its header and files sub-queries (`"A"`). -/
def mismatchRemote : Remote where
  header := fun _ _ _ => .body [] (some ⟨some headerDocA⟩)
  lineItems := fun _ _ _ => .body [] (some ⟨some lineDocB⟩)
  files := fun _ _ _ => .body [] (some ⟨some filesDocA⟩)

/-- A remote answering all three sub-queries consistently for order `"A"`. -/
def okRemote : Remote where
  header := fun _ _ _ => .body [] (some ⟨some headerDocA⟩)
  lineItems := fun _ _ _ => .body [] (some ⟨some lineDocA⟩)
  files := fun _ _ _ => .body [] (some ⟨some filesDocA⟩)

/-- A remote whose every exchange is a network failure. -/
def downRemote : Remote where
  header := fun _ _ _ => .netError "fetch failed"
  lineItems := fun _ _ _ => .netError "fetch failed"
  files := fun _ _ _ => .netError "fetch failed"

/-- An attempt oracle that always fails at the network level. -/
def downOracle : Nat → Exchange (OrderField HeaderDoc) := fun _ => .netError "fetch failed"

/-- An attempt oracle rejected with HTTP 401 (authentication) on the first attempt and succeeding on later attempts. -/
def authRejectOracle : Nat → Exchange (OrderField HeaderDoc) := fun a =>
  if a = 1 then .httpError 401 "Unauthorized" else .body [] (some ⟨some headerDocA⟩)

/-- A verification-query oracle that succeeds with a total count. -/
def demoVerify : Nat → Exchange (OrderField Nat) := fun _ => .body [] (some ⟨some 42⟩)

/-- A single listing page with no nodes and no next page. -/
def emptyPage : ListConn := ⟨[], ⟨false, none⟩, 0⟩

/-- A listing endpoint serving the empty catalog. -/
def emptyListing : Listing := fun _ _ => .body [] (some ⟨some emptyPage⟩)

/-- An environment whose verification, listings and order queries all succeed. -/
def okEnv : Env := ⟨demoVerify, emptyListing, emptyListing, okRemote⟩

/-- An environment in which every network exchange fails. -/
def downEnv : Env where
  verify := fun _ => .netError "fetch failed"
  listInvoices := fun _ _ => .netError "fetch failed"
  listQuotes := fun _ _ => .netError "fetch failed"
  order := downRemote

/-- Catalog entries of the two-page demo catalog. -/
def ref104 : OrderRef := ⟨"I104", "104"⟩

def ref103 : OrderRef := ⟨"I103", "103"⟩

def ref102 : OrderRef := ⟨"I102", "102"⟩

/-- First page of the demo catalog: two refs, has a next page at cursor `"c1"`. -/
def page1 : ListConn := ⟨[ref104, ref103], ⟨true, some "c1"⟩, 3⟩

/-- Last page of the demo catalog. -/
def page2 : ListConn := ⟨[ref102], ⟨false, none⟩, 3⟩

/-- A listing endpoint serving `page1` at the initial cursor and `page2` afterwards. -/
def demoListing : Listing := fun c _ =>
  if c = none then .body [] (some ⟨some page1⟩) else .body [] (some ⟨some page2⟩)

/-- The state of a fresh run: empty store, initial progress, no files written. -/
def emptyState : ExtState := ⟨⟨[], []⟩, initialProgress "t0", none, [], 0, 0, []⟩

/-! theorems under test -/

/-- The record that a successful extraction of order `"A"` writes. -/
def savedRecordA : SavedOrder :=
  mkOutputData "t0" "invoice" ⟨"A", "103"⟩
    (mergeOrderData (some headerDocA) lineDocA filesDocA)

/-- A state in which invoice `"103"` is already on disk. -/
def preloadedState : ExtState :=
  ⟨⟨[("103", savedRecordA)], []⟩, initialProgress "t0", none, [], 0, 0, []⟩

/-- A fresh state whose checkpoint phase is already `complete`. -/
def completeState : ExtState :=
  ⟨⟨[], []⟩, { initialProgress "t0" with phase := some "complete" }, none, [],
    0, 0, []⟩

/-- A fresh state whose checkpoint phase is `quotes`. -/
def quotesState : ExtState :=
  ⟨⟨[], []⟩, { initialProgress "t0" with phase := some "quotes" }, none, [],
    0, 0, []⟩

/-- Successful API verification: the test query returned a data object with
a non-null `invoices` field (so `testData.invoices.totalNodes` is
readable). -/
def verifyOk (env : Env) : Prop :=
  ∃ n, (graphqlRequest env.verify MAX_RETRIES).result = .ok (some ⟨some n⟩)

/-! ## Helper lemmas -/

lemma graphqlLoop_cons {α : Type} (oracle : Nat → Exchange α) (attempt r : Nat) :
    graphqlLoop oracle attempt (r + 1) =
      match oneAttempt (oracle attempt) with
      | .ok d => ⟨.ok d, attempt, []⟩
      | .error e =>
          if r = 0 then ⟨.error e, attempt, []⟩
          else
            ⟨(graphqlLoop oracle (attempt + 1) r).result,
             (graphqlLoop oracle (attempt + 1) r).attempts,
             RETRY_DELAY * attempt :: (graphqlLoop oracle (attempt + 1) r).waits⟩ := rfl

/-- A request whose first attempt succeeds makes exactly one attempt. -/
lemma graphqlRequest_firstOk {α : Type} (oracle : Nat → Exchange α) (x : Option α)
    (h : oneAttempt (oracle 1) = .ok x) :
    graphqlRequest oracle MAX_RETRIES = ⟨.ok x, 1, []⟩ := by
  simp [graphqlRequest, MAX_RETRIES, graphqlLoop_cons, h]

/-- A request whose three allowed attempts all fail makes exactly
`MAX_RETRIES` attempts, waits `RETRY_DELAY * attempt` between them, and
rethrows the last error. -/
lemma graphqlRequest_allFail {α : Type} (oracle : Nat → Exchange α)
    (e1 e2 e3 : String)
    (h1 : oneAttempt (oracle 1) = .error e1)
    (h2 : oneAttempt (oracle 2) = .error e2)
    (h3 : oneAttempt (oracle 3) = .error e3) :
    graphqlRequest oracle MAX_RETRIES =
      ⟨.error e3, MAX_RETRIES, [RETRY_DELAY * 1, RETRY_DELAY * 2]⟩ := by
  simp [graphqlRequest, MAX_RETRIES, graphqlLoop_cons, h1, h2, h3, RETRY_DELAY]

/-- The attempt counter never goes below the attempt the loop was entered
at. -/
lemma graphqlLoop_attempts_ge {α : Type} (oracle : Nat → Exchange α) :
    ∀ remaining attempt, remaining ≠ 0 →
      attempt ≤ (graphqlLoop oracle attempt remaining).attempts := by
  intro remaining
  induction remaining with
  | zero => intro attempt h; exact absurd rfl h
  | succ r ih =>
      intro attempt _
      rw [graphqlLoop_cons]
      cases hx : oneAttempt (oracle attempt) with
      | ok d => simp
      | error e =>
          simp only
          by_cases hr : r = 0
          · simp [hr]
          · simp only [if_neg hr]
            exact le_trans (Nat.le_succ attempt) (ih (attempt + 1) hr)

lemma listGet_listSet_self {α : Type} :
    ∀ (l : List (String × α)) (k : String) (v : α),
      listGet (listSet l k v) k = some v := by
  intro l
  induction l with
  | nil => intro k v; simp [listSet, listGet]
  | cons h t ih =>
      intro k v
      by_cases hk : h.1 = k
      · simp [listSet, listGet, hk]
      · simp [listSet, listGet, hk, ih]

lemma listGet_listSet_ne {α : Type} :
    ∀ (l : List (String × α)) (k k' : String) (v : α), k ≠ k' →
      listGet (listSet l k v) k' = listGet l k' := by
  intro l
  induction l with
  | nil => intro k k' v hne; simp [listSet, listGet, hne]
  | cons h t ih =>
      intro k k' v hne
      by_cases hk : h.1 = k
      · simp [listSet, listGet, hk, hne]
      · simp [listSet, listGet, hk, ih _ _ _ hne]

/-- `orderExists` is exactly definedness of `storeGet`. -/
lemma orderExists_eq (st : Store) (type v : String) :
    orderExists st type v = (storeGet st type v).isSome := by
  unfold orderExists storeGet
  by_cases h : type = "invoice" <;> simp [h]

lemma storeGet_saveOrder (st : Store) (type v v' : String) (d : SavedOrder) :
    storeGet (saveOrder st type v d) type v' =
      if v = v' then some d else storeGet st type v' := by
  unfold saveOrder storeGet
  by_cases ht : type = "invoice" <;> by_cases hv : v = v' <;>
    simp [ht, hv, listGet_listSet_self, listGet_listSet_ne]



lemma fetchOrderData_ok_inv (r : Remote) (type pid : String) (d : OrderData)
    (h : fetchOrderData r type pid = .ok d) :
    ∃ (hw : OrderField HeaderDoc) (lw : OrderField LineItemsDoc)
      (fw : OrderField FilesDoc) (l : LineItemsDoc) (f : FilesDoc),
      (graphqlRequest (r.header type pid) MAX_RETRIES).result = .ok (some hw) ∧
      (graphqlRequest (r.lineItems type pid) MAX_RETRIES).result = .ok (some lw) ∧
      (graphqlRequest (r.files type pid) MAX_RETRIES).result = .ok (some fw) ∧
      lw.order = some l ∧ fw.order = some f ∧
      d = mergeOrderData hw.order l f := by
  unfold fetchOrderData at h
  split at h
  · exact Except.noConfusion h
  rename_i hd hh
  split at h
  · exact Except.noConfusion h
  rename_i ld hl
  split at h
  · exact Except.noConfusion h
  rename_i fd hf
  split at h
  · rename_i hw lw fw
    split at h
    · rename_i l f hlo hfo
      injection h with h
      exact ⟨hw, lw, fw, l, f, hh, hl, hf, hlo, hfo, h.symm⟩
    · exact Except.noConfusion h
  · exact Except.noConfusion h



lemma extractStep_cases (r : Remote) (type now : String) (s : ExtState) (o : OrderRef) :
    (orderExists s.store type o.visualId = true ∧
      extractStep r type now s o = { s with skipped := s.skipped + 1 }) ∨
    (orderExists s.store type o.visualId = false ∧
      ((∃ d, fetchOrderData r type o.id = .ok d ∧
          (extractStep r type now s o).store =
            saveOrder s.store type o.visualId (mkOutputData now type o d) ∧
          (extractStep r type now s o).fetches = s.fetches ++ [o] ∧
          (extractStep r type now s o).errorsFile = s.errorsFile ∧
          (extractStep r type now s o).progress.errors = s.progress.errors ∧
          (extractStep r type now s o).processed = s.processed + 1 ∧
          (extractStep r type now s o).skipped = s.skipped) ∨
       (∃ e, fetchOrderData r type o.id = .error e ∧
          (extractStep r type now s o).store = s.store ∧
          (extractStep r type now s o).fetches = s.fetches ++ [o] ∧
          (extractStep r type now s o).errorsFile =
            s.errorsFile ++ [⟨type, o.visualId, o.id, e, MAX_RETRIES, now⟩] ∧
          (extractStep r type now s o).progress.errors = s.progress.errors + 1 ∧
          (extractStep r type now s o).processed = s.processed ∧
          (extractStep r type now s o).skipped = s.skipped))) := by
  by_cases hex : orderExists s.store type o.visualId = true
  · left
    exact ⟨hex, by simp [extractStep, hex]⟩
  · right
    have hex' : orderExists s.store type o.visualId = false := by
      simpa using hex
    refine ⟨hex', ?_⟩
    cases hf : fetchOrderData r type o.id with
    | ok d =>
        left
        refine ⟨d, rfl, ?_, ?_, ?_, ?_, ?_, ?_⟩ <;>
          · simp only [extractStep, hex', hf]
            by_cases h10 : (s.processed + 1) % 10 = 0 <;>
              simp [h10, saveProgressSt]
    | error e =>
        right
        refine ⟨e, rfl, ?_, ?_, ?_, ?_, ?_, ?_⟩ <;>
          simp [extractStep, hex', hf, saveProgressSt]



lemma extractGo_cons (r : Remote) (type now : String) (o : OrderRef)
    (rest : List OrderRef) (s : ExtState) :
    extractGo r type now (o :: rest) s =
      extractGo r type now rest (extractStep r type now s o) := rfl

lemma extractGo_frame (r : Remote) (type now : String) :
    ∀ (ids : List OrderRef) (s : ExtState) (v : String),
      orderExists s.store type v = true →
      storeGet (extractGo r type now ids s).store type v = storeGet s.store type v ∧
      ∃ F, (extractGo r type now ids s).fetches = s.fetches ++ F ∧
        F.Sublist ids ∧ ∀ o ∈ F, o.visualId ≠ v := by
  intro ids
  induction ids with
  | nil =>
      intro s v hex
      exact ⟨rfl, [], by simp [extractGo], List.nil_sublist _, by simp⟩
  | cons o rest ih =>
      intro s v hex
      rcases extractStep_cases r type now s o with ⟨hex1, heq⟩ | ⟨hnex, hcase⟩
      · rw [extractGo_cons, heq]
        obtain ⟨h1, F, h2, h3, h4⟩ :=
          ih { s with skipped := s.skipped + 1 } v (by simpa using hex)
        exact ⟨h1, F, by simpa using h2, h3.cons o, h4⟩
      · have hne : o.visualId ≠ v := by
          intro hvv
          rw [hvv, hex] at hnex
          exact Bool.noConfusion hnex
        have hget : storeGet (extractStep r type now s o).store type v =
            storeGet s.store type v := by
          rcases hcase with ⟨d, _, hst, _⟩ | ⟨e, _, hst, _⟩
          · rw [hst, storeGet_saveOrder]
            simp [hne]
          · rw [hst]
        have hex1 : orderExists (extractStep r type now s o).store type v = true := by
          rw [orderExists_eq, hget, ← orderExists_eq]
          exact hex
        have hfe : (extractStep r type now s o).fetches = s.fetches ++ [o] := by
          rcases hcase with ⟨d, _, _, hfe, _⟩ | ⟨e, _, _, hfe, _⟩ <;> exact hfe
        obtain ⟨h1, F, h2, h3, h4⟩ := ih (extractStep r type now s o) v hex1
        rw [extractGo_cons]
        refine ⟨by rw [h1, hget], o :: F, ?_, h3.cons₂ o, ?_⟩
        · rw [h2, hfe]
          simp
        · intro o' ho'
          rcases List.mem_cons.mp ho' with h | h
          · rw [h]; exact hne
          · exact h4 o' h

lemma extractGo_count (r : Remote) (type now : String) :
    ∀ (ids : List OrderRef) (s : ExtState),
      (extractGo r type now ids s).processed + (extractGo r type now ids s).skipped +
        (extractGo r type now ids s).progress.errors =
      ids.length + (s.processed + s.skipped + s.progress.errors) := by
  intro ids
  induction ids with
  | nil => intro s; simp [extractGo]
  | cons o rest ih =>
      intro s
      rw [extractGo_cons]
      rw [ih (extractStep r type now s o)]
      rcases extractStep_cases r type now s o with ⟨_, heq⟩ | ⟨_, hcase⟩
      · rw [heq]; simp; omega
      · rcases hcase with ⟨d, _, _, _, _, herr, hproc, hskip⟩ |
          ⟨e, _, _, _, _, herr, hproc, hskip⟩ <;>
          · rw [herr, hproc, hskip]; simp; omega

lemma extractGo_new_record (r : Remote) (type now : String) :
    ∀ (ids : List OrderRef) (s : ExtState) (v : String),
      (storeGet (extractGo r type now ids s).store type v).isSome = true →
      (storeGet s.store type v).isSome = true ∨
      ∃ o ∈ ids, o.visualId = v ∧ ∃ d, fetchOrderData r type o.id = .ok d ∧
        storeGet (extractGo r type now ids s).store type v =
          some (mkOutputData now type o d) := by
  intro ids
  induction ids with
  | nil => intro s v h; exact Or.inl h
  | cons o rest ih =>
      intro s v h
      rcases extractStep_cases r type now s o with ⟨hex1, heq⟩ | ⟨hnex, hcase⟩
      · rw [extractGo_cons, heq] at h
        rcases ih _ v h with hl | ⟨o', ho', hv, d, hd, hval⟩
        · exact Or.inl (by simpa using hl)
        · exact Or.inr ⟨o', List.mem_cons_of_mem o ho', hv, d, hd,
            by rw [← hval, extractGo_cons, heq]⟩
      · rcases hcase with ⟨d, hf, hst, _⟩ | ⟨e, hf, hst, _⟩
        · by_cases hv : o.visualId = v
          · -- the step wrote v; it survives to the end by the frame lemma
            have hexStep : orderExists (extractStep r type now s o).store type v = true := by
              rw [orderExists_eq, hst, storeGet_saveOrder]
              simp [hv]
            have hframe := extractGo_frame r type now rest (extractStep r type now s o) v hexStep
            refine Or.inr ⟨o, List.mem_cons_self o rest, hv, d, hf, ?_⟩
            rw [extractGo_cons, hframe.1, hst, storeGet_saveOrder]
            simp [hv]
          · rw [extractGo_cons] at h ⊢
            rcases ih _ v h with hl | hr
            · rw [hst, storeGet_saveOrder] at hl
              simp only [if_neg hv] at hl
              exact Or.inl hl
            · obtain ⟨o', ho', rest'⟩ := hr
              exact Or.inr ⟨o', List.mem_cons_of_mem o ho', rest'⟩
        · rw [extractGo_cons] at h ⊢
          rcases ih _ v h with hl | hr
          · rw [hst] at hl
            exact Or.inl hl
          · obtain ⟨o', ho', rest'⟩ := hr
            exact Or.inr ⟨o', List.mem_cons_of_mem o ho', rest'⟩

lemma fetchIdsGo_serves (listing : Listing) (pages : List ListConn)
    (cursor : Option String) (hserve : ServesFrom listing cursor pages) :
    ∀ (acc : List OrderRef) (fuel : Nat), pages.length ≤ fuel →
      fetchIdsGo listing fuel acc cursor =
        .ok (acc ++ (pages.map ListConn.nodes).flatten) := by
  induction hserve with
  | last cursor p hsv hlast =>
      intro acc fuel hfuel
      cases fuel with
      | zero => simp at hfuel
      | succ f =>
          have hone : oneAttempt (listing cursor 1) = .ok (some ⟨some p⟩) := by
            rw [hsv]; rfl
          have hreq := graphqlRequest_firstOk (listing cursor) (some ⟨some p⟩) hone
          simp [fetchIdsGo, hreq, hlast]
  | cons cursor p rest hsv hnext hrest ih =>
      intro acc fuel hfuel
      cases fuel with
      | zero => simp at hfuel
      | succ f =>
          have hone : oneAttempt (listing cursor 1) = .ok (some ⟨some p⟩) := by
            rw [hsv]; rfl
          have hreq := graphqlRequest_firstOk (listing cursor) (some ⟨some p⟩) hone
          have hf : rest.length ≤ f := by
            simpa using hfuel
          simp [fetchIdsGo, hreq, hnext, ih (acc ++ p.nodes) f hf]

lemma phaseRank_le_two (ph : Option String) : phaseRank ph ≤ 2 := by
  unfold phaseRank
  by_cases h1 : ph = some "quotes"
  · simp [h1]
  · by_cases h2 : ph = some "complete" <;> simp [h1, h2]

lemma mainQuotes_rank (env : Env) (fuel : Nat) (now : String) (s : ExtState) :
    phaseRank s.progress.phase ≤
      phaseRank (mainQuotes env fuel now s).state.progress.phase := by
  unfold mainQuotes
  by_cases hq : s.progress.phase = some "quotes"
  · rw [if_pos hq]
    cases hids : fetchAllOrderIds env.listQuotes fuel with
    | error e => exact Nat.le_refl _
    | ok ids =>
        rw [hq]
        show phaseRank (some "quotes") ≤ phaseRank (some "complete")
        show (1 : Nat) ≤ 2
        omega
  · rw [if_neg hq]

lemma runMain_rank (env : Env) (fuel : Nat) (now : String) (s : ExtState) :
    phaseRank s.progress.phase ≤
      phaseRank (runMain env fuel now s).state.progress.phase := by
  unfold runMain
  cases hv : (graphqlRequest env.verify MAX_RETRIES).result with
  | error e => exact Nat.le_refl _
  | ok w =>
      cases w with
      | none => exact Nat.le_refl _
      | some w =>
          obtain ⟨wo⟩ := w
          cases wo with
          | none => exact Nat.le_refl _
          | some n =>
              by_cases hph :
                  s.progress.phase = some "invoices" ∨ s.progress.phase = none
              · have h0 : phaseRank s.progress.phase = 0 := by
                  rcases hph with h | h <;> rw [h] <;> rfl
                rw [h0]
                exact Nat.zero_le _
              · rw [if_neg hph]
                exact mainQuotes_rank env fuel now s

/-! ## Claim theorems -/

/-- C1: an OrderRecord present in the store after the extraction loop and
absent before it belongs to a catalog order all three of whose sub-document
requests succeeded, and the stored record is exactly the output object built
from the merge of those three sub-documents — the store never holds a record
built from fewer than three sub-documents. -/
theorem C1_record_implies_three_subdocs (r : Remote) (type now : String)
    (ids : List OrderRef) (s : ExtState) (v : String)
    (hafter :
      (storeGet (extractOrders r type now ids s).store type v).isSome = true)
    (hbefore : (storeGet s.store type v).isSome = false) :
    ∃ o ∈ ids, o.visualId = v ∧
      ∃ (hw : OrderField HeaderDoc) (lw : OrderField LineItemsDoc)
        (fw : OrderField FilesDoc) (l : LineItemsDoc) (f : FilesDoc),
        (graphqlRequest (r.header type o.id) MAX_RETRIES).result = .ok (some hw) ∧
        (graphqlRequest (r.lineItems type o.id) MAX_RETRIES).result =
          .ok (some lw) ∧
        (graphqlRequest (r.files type o.id) MAX_RETRIES).result = .ok (some fw) ∧
        lw.order = some l ∧ fw.order = some f ∧
        storeGet (extractOrders r type now ids s).store type v =
          some (mkOutputData now type o (mergeOrderData hw.order l f)) := by
  unfold extractOrders at hafter ⊢
  rcases extractGo_new_record r type now ids
      { s with processed := 0, skipped := 0 } v hafter with
    hl | ⟨o, ho, hv, d, hd, hval⟩
  · rw [show ({ s with processed := 0, skipped := 0 } : ExtState).store = s.store
        from rfl, hbefore] at hl
    exact Bool.noConfusion hl
  · obtain ⟨hw, lw, fw, l, f, h1, h2, h3, h4, h5, hdm⟩ :=
      fetchOrderData_ok_inv r type o.id d hd
    subst hdm
    exact ⟨o, ho, hv, hw, lw, fw, l, f, h1, h2, h3, h4, h5, hval⟩

/-- Witness for C1 at a concrete one-order catalog against a fully
successful remote. -/
theorem C1_witness :
    ∃ o ∈ [(⟨"A", "103"⟩ : OrderRef)], o.visualId = "103" ∧
      ∃ (hw : OrderField HeaderDoc) (lw : OrderField LineItemsDoc)
        (fw : OrderField FilesDoc) (l : LineItemsDoc) (f : FilesDoc),
        (graphqlRequest (okRemote.header "invoice" o.id) MAX_RETRIES).result =
          .ok (some hw) ∧
        (graphqlRequest (okRemote.lineItems "invoice" o.id) MAX_RETRIES).result =
          .ok (some lw) ∧
        (graphqlRequest (okRemote.files "invoice" o.id) MAX_RETRIES).result =
          .ok (some fw) ∧
        lw.order = some l ∧ fw.order = some f ∧
        storeGet (extractOrders okRemote "invoice" "t0" [⟨"A", "103"⟩]
            emptyState).store "invoice" "103" =
          some (mkOutputData "t0" "invoice" o (mergeOrderData hw.order l f)) :=
  C1_record_implies_three_subdocs okRemote "invoice" "t0" [⟨"A", "103"⟩]
    emptyState "103" rfl rfl

/-- C2 (counterexample): fed a Header carrying internalId `"A"` and a
LineItemTree carrying internalId `"B"`, the code raises no
MergeInvariantViolation: `fetchOrderData` resolves with the silently merged
record and the extraction loop persists it. -/
theorem C2_counterexample :
    headerDocA.id = "A" ∧ lineDocB.id = "B" ∧
    fetchOrderData mismatchRemote "invoice" "A" =
      .ok (mergeOrderData (some headerDocA) lineDocB filesDocA) ∧
    storeGet (extractOrders mismatchRemote "invoice" "t0" [⟨"A", "103"⟩]
        emptyState).store "invoice" "103" =
      some (mkOutputData "t0" "invoice" ⟨"A", "103"⟩
        (mergeOrderData (some headerDocA) lineDocB filesDocA)) :=
  ⟨rfl, rfl, rfl, rfl⟩

/-- C2 (amended): the merge step verifies nothing: the merged record is
independent of the internal ids carried by the line-items and files
sub-documents (its `id` comes from the Header alone), so sub-documents with
mismatched ids are silently merged, never rejected. -/
theorem C2_amended_merge_unchecked (h : HeaderDoc) (l : LineItemsDoc)
    (f : FilesDoc) (idl idf : String) :
    mergeOrderData (some h) ⟨idl, l.lineItemGroups⟩
        ⟨idf, f.productionFiles, f.fees, f.expenses, f.tasks, f.transactions⟩ =
      mergeOrderData (some h) l f ∧
    (mergeOrderData (some h) l f).id = some h.id ∧
    (mergeOrderData (some h) l f).lineItemGroups = l.lineItemGroups :=
  ⟨rfl, rfl, rfl⟩

/-- C3 (counterexample): with first-attempt transient failures of the
header sub-query (300 ms latency) and line-items sub-query (5 ms latency),
their retries are issued at 5300 ms and 5655 ms — 355 ms apart, below the
650 ms minimum inter-call delay, so no globally enforced minimum spacing
holds on the retry path. -/
theorem C3_counterexample :
    fetchOrderDataReqTimes (fun a => a == 1) (fun a => a == 1) (fun _ => false)
        (fun _ => 300) (fun _ => 5) (fun _ => 0) = [0, 5300, 650, 5655, 1300] ∧
    pacedBool [0, 5300, 650, 5655, 1300] = false ∧
    Nat.dist 5300 5655 = 355 ∧ 355 < RATE_LIMIT_DELAY :=
  ⟨rfl, rfl, by decide, by decide⟩

/-- C3 (amended): pacing is enforced per call site only: in the
all-success path the three sub-queries of one order are issued exactly
`RATE_LIMIT_DELAY` apart regardless of network latencies, which satisfies
the minimum spacing there; the counterexample shows the guarantee does not
extend to concurrent retry attempts. -/
theorem C3_amended_local_pacing (latH latL latF : Nat → Nat) :
    fetchOrderDataReqTimes (fun _ => false) (fun _ => false) (fun _ => false)
        latH latL latF = [0, RATE_LIMIT_DELAY, RATE_LIMIT_DELAY * 2] ∧
    pacedBool [0, RATE_LIMIT_DELAY, RATE_LIMIT_DELAY * 2] = true :=
  ⟨rfl, by decide⟩

/-- C4: a catalog order whose record already exists at the
(kind, humanId) key is skipped unconditionally: after the loop the stored
value at that key is unchanged, the orders fetched during the loop form a
sublist of the catalog none of which bears that humanId, and when the
catalog's humanIds are pairwise distinct no order is fetched twice in the
run. -/
theorem C4_existing_records_skipped (r : Remote) (type now : String)
    (ids : List OrderRef) (s : ExtState) (v : String)
    (hex : orderExists s.store type v = true) :
    storeGet (extractOrders r type now ids s).store type v =
      storeGet s.store type v ∧
    ∃ F, (extractOrders r type now ids s).fetches = s.fetches ++ F ∧
      F.Sublist ids ∧ (∀ o ∈ F, o.visualId ≠ v) ∧
      ((ids.map OrderRef.visualId).Nodup → (F.map OrderRef.visualId).Nodup) := by
  unfold extractOrders
  obtain ⟨h1, F, h2, h3, h4⟩ :=
    extractGo_frame r type now ids { s with processed := 0, skipped := 0 } v hex
  exact ⟨h1, F, h2, h3, h4, fun hnod => hnod.sublist (h3.map OrderRef.visualId)⟩

/-- Witness for C4: invoice `"103"` is already on disk and is skipped
while `"102"` is processed. -/
theorem C4_witness :
    storeGet (extractOrders okRemote "invoice" "t1"
        [⟨"A", "103"⟩, ⟨"Bid", "102"⟩] preloadedState).store "invoice" "103" =
      storeGet preloadedState.store "invoice" "103" ∧
    ∃ F, (extractOrders okRemote "invoice" "t1" [⟨"A", "103"⟩, ⟨"Bid", "102"⟩]
        preloadedState).fetches = preloadedState.fetches ++ F ∧
      F.Sublist [⟨"A", "103"⟩, ⟨"Bid", "102"⟩] ∧
      (∀ o ∈ F, o.visualId ≠ "103") ∧
      ((([⟨"A", "103"⟩, ⟨"Bid", "102"⟩] : List OrderRef).map
          OrderRef.visualId).Nodup → (F.map OrderRef.visualId).Nodup) :=
  C4_existing_records_skipped okRemote "invoice" "t1"
    [⟨"A", "103"⟩, ⟨"Bid", "102"⟩] preloadedState "103" rfl

/-- C5: a sub-query whose three attempts all fail is attempted exactly
`MAX_RETRIES` times with strictly increasing retry delays, the failure
surfaces from `fetchOrderData`, and the order yields no stored record,
exactly one appended ErrorRecord, an error counter incremented by one, and
the loop continuing with the remaining orders. -/
theorem C5_transient_exhaustion (r : Remote) (type now : String) (o : OrderRef)
    (s : ExtState) (rest : List OrderRef) (e1 e2 e3 : String)
    (hnew : orderExists s.store type o.visualId = false)
    (h1 : oneAttempt (r.header type o.id 1) = .error e1)
    (h2 : oneAttempt (r.header type o.id 2) = .error e2)
    (h3 : oneAttempt (r.header type o.id 3) = .error e3) :
    (graphqlRequest (r.header type o.id) MAX_RETRIES).attempts = MAX_RETRIES ∧
    (graphqlRequest (r.header type o.id) MAX_RETRIES).waits =
      [RETRY_DELAY * 1, RETRY_DELAY * 2] ∧
    List.Chain' (· < ·) (graphqlRequest (r.header type o.id) MAX_RETRIES).waits ∧
    fetchOrderData r type o.id = .error e3 ∧
    extractStep r type now s o =
      saveProgressSt now
        { s with
          fetches := s.fetches ++ [o]
          errorsFile :=
            s.errorsFile ++ [⟨type, o.visualId, o.id, e3, MAX_RETRIES, now⟩]
          progress := { s.progress with errors := s.progress.errors + 1 } } ∧
    (extractStep r type now s o).store = s.store ∧
    (extractStep r type now s o).errorsFile =
      s.errorsFile ++ [⟨type, o.visualId, o.id, e3, MAX_RETRIES, now⟩] ∧
    (extractStep r type now s o).progress.errors = s.progress.errors + 1 ∧
    extractGo r type now (o :: rest) s =
      extractGo r type now rest (extractStep r type now s o) := by
  have hreq := graphqlRequest_allFail (r.header type o.id) e1 e2 e3 h1 h2 h3
  have hfd : fetchOrderData r type o.id = .error e3 := by
    simp [fetchOrderData, hreq]
  refine ⟨by rw [hreq], by rw [hreq], ?_, hfd, ?_, ?_, ?_, ?_, rfl⟩
  · rw [hreq]
    show List.Chain' (· < ·) [RETRY_DELAY * 1, RETRY_DELAY * 2]
    simp [List.chain'_cons, RETRY_DELAY]
  · simp [extractStep, hnew, hfd, saveProgressSt]
  · simp [extractStep, hnew, hfd, saveProgressSt]
  · simp [extractStep, hnew, hfd, saveProgressSt]
  · simp [extractStep, hnew, hfd, saveProgressSt]

/-- Witness for C5 against a remote that is down. -/
theorem C5_witness :
    (graphqlRequest (downRemote.header "invoice" "X") MAX_RETRIES).attempts =
      MAX_RETRIES ∧
    (graphqlRequest (downRemote.header "invoice" "X") MAX_RETRIES).waits =
      [RETRY_DELAY * 1, RETRY_DELAY * 2] ∧
    List.Chain' (· < ·)
      (graphqlRequest (downRemote.header "invoice" "X") MAX_RETRIES).waits ∧
    fetchOrderData downRemote "invoice" "X" = .error "fetch failed" ∧
    extractStep downRemote "invoice" "t0" emptyState ⟨"X", "104"⟩ =
      saveProgressSt "t0"
        { emptyState with
          fetches := emptyState.fetches ++ [⟨"X", "104"⟩]
          errorsFile :=
            emptyState.errorsFile ++
              [⟨"invoice", "104", "X", "fetch failed", MAX_RETRIES, "t0"⟩]
          progress :=
            { emptyState.progress with
              errors := emptyState.progress.errors + 1 } } ∧
    (extractStep downRemote "invoice" "t0" emptyState ⟨"X", "104"⟩).store =
      emptyState.store ∧
    (extractStep downRemote "invoice" "t0" emptyState ⟨"X", "104"⟩).errorsFile =
      emptyState.errorsFile ++
        [⟨"invoice", "104", "X", "fetch failed", MAX_RETRIES, "t0"⟩] ∧
    (extractStep downRemote "invoice" "t0" emptyState
        ⟨"X", "104"⟩).progress.errors = emptyState.progress.errors + 1 ∧
    extractGo downRemote "invoice" "t0" [⟨"X", "104"⟩, ⟨"Y", "102"⟩] emptyState =
      extractGo downRemote "invoice" "t0" [⟨"Y", "102"⟩]
        (extractStep downRemote "invoice" "t0" emptyState ⟨"X", "104"⟩) :=
  C5_transient_exhaustion downRemote "invoice" "t0" ⟨"X", "104"⟩ emptyState
    [⟨"Y", "102"⟩] "fetch failed" "fetch failed" "fetch failed" rfl rfl rfl rfl

/-- C6 (counterexample): an authentication rejection (HTTP 401) on the
first attempt — a FatalFailure in the spec's taxonomy — is not propagated
immediately: the transport retries it and the second attempt succeeds. -/
theorem C6_counterexample :
    (graphqlRequest authRejectOracle MAX_RETRIES).attempts = 2 ∧
    (graphqlRequest authRejectOracle MAX_RETRIES).result =
      .ok (some ⟨some headerDocA⟩) ∧
    (graphqlRequest authRejectOracle MAX_RETRIES).waits = [RETRY_DELAY * 1] :=
  ⟨rfl, rfl, rfl⟩

/-- C6 (amended): the transport classifies nothing: after any failed
first attempt, whatever its kind, at least a second attempt is made. -/
theorem C6_amended_no_classification {α : Type} (oracle : Nat → Exchange α)
    (e : String) (h : oneAttempt (oracle 1) = .error e) :
    2 ≤ (graphqlRequest oracle MAX_RETRIES).attempts := by
  simp only [graphqlRequest, MAX_RETRIES, graphqlLoop_cons, h]
  exact graphqlLoop_attempts_ge oracle 2 2 (by decide)

/-- Witness for the amended C6 at a network-failure oracle. -/
theorem C6_amended_witness :
    2 ≤ (graphqlRequest downOracle MAX_RETRIES).attempts :=
  C6_amended_no_classification downOracle "fetch failed" rfl

/-- C7 (counterexample): a process started with phase `complete` does
not always exit successfully — when the startup API-verification request
fails, it exits with an error. -/
theorem C7_counterexample :
    completeState.progress.phase = some "complete" ∧
    (runMain downEnv 1 "t0" completeState).exitSuccess = false :=
  ⟨rfl, rfl⟩

/-- C7 (amended): the checkpoint phase only moves forward through
invoices → quotes → complete; the extraction pass preceding each transition
attempts every listed id (each is skipped, extracted, or recorded as an
error); a process started with phase `complete` leaves the state untouched
and exits successfully exactly when the startup verification request
succeeds; and each transition fires exactly at the end of the full
extraction pass over the listed ids of its kind. -/
theorem C7_amended_phase_machine :
    (∀ (env : Env) (fuel : Nat) (now : String) (s : ExtState),
      phaseRank s.progress.phase ≤
        phaseRank (runMain env fuel now s).state.progress.phase) ∧
    (∀ (env : Env) (fuel : Nat) (now : String) (s : ExtState),
      s.progress.phase = some "complete" →
      (runMain env fuel now s).state = s ∧
      ((runMain env fuel now s).exitSuccess = true ↔ verifyOk env)) ∧
    (∀ (r : Remote) (type now : String) (ids : List OrderRef) (s : ExtState),
      (extractOrders r type now ids s).processed +
          (extractOrders r type now ids s).skipped +
          (extractOrders r type now ids s).progress.errors =
        ids.length + s.progress.errors) ∧
    (∀ (env : Env) (fuel : Nat) (now : String) (s : ExtState)
        (ids : List OrderRef),
      verifyOk env →
      (s.progress.phase = some "invoices" ∨ s.progress.phase = none) →
      fetchAllOrderIds env.listInvoices fuel = .ok ids →
      runMain env fuel now s =
        mainQuotes env fuel now
          (saveProgressSt now
            (setPhase (extractOrders env.order "invoice" now ids s)
              "quotes"))) ∧
    (∀ (env : Env) (fuel : Nat) (now : String) (s : ExtState)
        (qids : List OrderRef),
      s.progress.phase = some "quotes" →
      fetchAllOrderIds env.listQuotes fuel = .ok qids →
      mainQuotes env fuel now s =
        ⟨true,
         saveProgressSt now
           (setPhase (extractOrders env.order "quote" now qids s) "complete"),
         some (mkSummary now
           (saveProgressSt now
             (setPhase (extractOrders env.order "quote" now qids s)
               "complete")).progress)⟩) := by
  refine ⟨runMain_rank, ?_, ?_, ?_, ?_⟩
  · intro env fuel now s hph
    unfold runMain
    cases hv : (graphqlRequest env.verify MAX_RETRIES).result with
    | error e =>
        refine ⟨rfl, ?_⟩
        constructor
        · intro h; exact Bool.noConfusion h
        · rintro ⟨n, hn⟩
          rw [hv] at hn
          exact Except.noConfusion hn
    | ok w =>
        cases w with
        | none =>
            refine ⟨rfl, ?_⟩
            constructor
            · intro h; exact Bool.noConfusion h
            · rintro ⟨n, hn⟩
              rw [hv] at hn
              simp at hn
        | some w =>
            obtain ⟨wo⟩ := w
            cases wo with
            | none =>
                refine ⟨rfl, ?_⟩
                constructor
                · intro h; exact Bool.noConfusion h
                · rintro ⟨n, hn⟩
                  rw [hv] at hn
                  simp at hn
            | some n =>
                have hnotinv :
                    ¬(s.progress.phase = some "invoices" ∨
                      s.progress.phase = none) := by
                  simp [hph]
                rw [if_neg hnotinv]
                unfold mainQuotes
                have hnotq : ¬s.progress.phase = some "quotes" := by
                  simp [hph]
                rw [if_neg hnotq]
                exact ⟨rfl, iff_of_true rfl ⟨n, hv⟩⟩
  · intro r type now ids s
    have h := extractGo_count r type now ids
      { s with processed := 0, skipped := 0 }
    simpa [extractOrders] using h
  · rintro env fuel now s ids ⟨n, hn⟩ hph hids
    unfold runMain
    rw [hn, if_pos hph, hids]
  · intro env fuel now s qids hq hids
    unfold mainQuotes
    rw [if_pos hq, hids]

/-- Witness for the amended C7 at concrete environments and states. -/
theorem C7_amended_witness :
    (phaseRank completeState.progress.phase ≤
      phaseRank (runMain okEnv 1 "t0" completeState).state.progress.phase) ∧
    ((runMain okEnv 1 "t0" completeState).state = completeState ∧
      ((runMain okEnv 1 "t0" completeState).exitSuccess = true ↔
        verifyOk okEnv)) ∧
    ((extractOrders okRemote "invoice" "t0" [⟨"A", "103"⟩]
          emptyState).processed +
        (extractOrders okRemote "invoice" "t0" [⟨"A", "103"⟩]
          emptyState).skipped +
        (extractOrders okRemote "invoice" "t0" [⟨"A", "103"⟩]
          emptyState).progress.errors =
      ([(⟨"A", "103"⟩ : OrderRef)]).length + emptyState.progress.errors) ∧
    (runMain okEnv 1 "t0" emptyState =
      mainQuotes okEnv 1 "t0"
        (saveProgressSt "t0"
          (setPhase (extractOrders okEnv.order "invoice" "t0" [] emptyState)
            "quotes"))) ∧
    (mainQuotes okEnv 1 "t0" quotesState =
      ⟨true,
       saveProgressSt "t0"
         (setPhase (extractOrders okEnv.order "quote" "t0" [] quotesState)
           "complete"),
       some (mkSummary "t0"
         (saveProgressSt "t0"
           (setPhase (extractOrders okEnv.order "quote" "t0" [] quotesState)
             "complete")).progress)⟩) :=
  ⟨C7_amended_phase_machine.1 okEnv 1 "t0" completeState,
   C7_amended_phase_machine.2.1 okEnv 1 "t0" completeState rfl,
   C7_amended_phase_machine.2.2.1 okRemote "invoice" "t0" [⟨"A", "103"⟩]
     emptyState,
   C7_amended_phase_machine.2.2.2.1 okEnv 1 "t0" emptyState [] ⟨42, rfl⟩
     (Or.inl rfl) rfl,
   C7_amended_phase_machine.2.2.2.2 okEnv 1 "t0" quotesState [] rfl rfl⟩

/-- C8: over a well-formed paginated catalog the walker returns exactly
the concatenation of all pages' nodes in discovery order — as many refs as
the catalog has ids, whatever the number of pages, with no duplicates
whenever the catalog's ids are distinct, and tolerating an empty catalog. -/
theorem C8_catalog_walker (listing : Listing) (pages : List ListConn)
    (fuel : Nat) (hserve : ServesFrom listing none pages)
    (hfuel : pages.length ≤ fuel) :
    fetchAllOrderIds listing fuel = .ok ((pages.map ListConn.nodes).flatten) ∧
    ((pages.map ListConn.nodes).flatten).length =
      (pages.map (fun p => p.nodes.length)).sum ∧
    ((((pages.map ListConn.nodes).flatten).map OrderRef.id).Nodup →
      ((pages.map ListConn.nodes).flatten).Nodup) := by
  refine ⟨?_, ?_, ?_⟩
  · have h := fetchIdsGo_serves listing pages none hserve [] fuel hfuel
    simpa [fetchAllOrderIds] using h
  · rw [List.length_flatten, List.map_map]
    rfl
  · exact fun h => h.of_map OrderRef.id

/-- Witness for C8 on a concrete two-page catalog of three ids. -/
theorem C8_witness :
    fetchAllOrderIds demoListing 2 = .ok (([page1, page2].map ListConn.nodes).flatten) ∧
    ((([page1, page2].map ListConn.nodes).flatten).length =
      ([page1, page2].map (fun p => p.nodes.length)).sum) ∧
    (((([page1, page2].map ListConn.nodes).flatten).map OrderRef.id).Nodup →
      (([page1, page2].map ListConn.nodes).flatten).Nodup) :=
  C8_catalog_walker demoListing [page1, page2] 2
    (ServesFrom.cons none page1 [page2] rfl rfl
      (ServesFrom.last (some "c1") page2 rfl rfl))
    (by decide)

/-- C9 (counterexample): a configuration whose token is still the
placeholder `your-api-token-here` (with a real e-mail) is not rejected at
startup. -/
theorem C9_counterexample :
    credentialsRejected ⟨"owner@shop.com", tokenPlaceholder⟩ = false := rfl

/-- C9 (amended): startup rejects exactly the configurations with a
missing e-mail, a missing token, or the placeholder e-mail — the
placeholder token is never checked; a rejected configuration makes the
process exit with an error before issuing any request. -/
theorem C9_amended_placeholder_token_not_rejected (c : ConfigJs) :
    (credentialsRejected c = true ↔
      c.email = "" ∨ c.token = "" ∨ c.email = emailPlaceholder) ∧
    ∀ (env : Env) (fuel : Nat) (now : String) (s : ExtState),
      credentialsRejected c = true →
      startProcess c env fuel now s = ⟨false, s, none⟩ := by
  constructor
  · simp [credentialsRejected, or_assoc]
  · intro env fuel now s h
    simp [startProcess, h]

/-- Witness for the amended C9 at the empty configuration. -/
theorem C9_amended_witness :
    startProcess ⟨"", ""⟩ okEnv 1 "t0" emptyState = ⟨false, emptyState, none⟩ :=
  (C9_amended_placeholder_token_not_rejected ⟨"", ""⟩).2 okEnv 1 "t0" emptyState rfl

/-- C10: when the checkpoint file is absent or its contents cannot be
parsed, `loadProgress` returns the initial state — phase `invoices`, no
last-processed visual id, all processed counts, attachment counters and the
error count zero — instead of failing. -/
theorem C10_corrupt_checkpoint (raw : Option (Option Progress)) (now : String)
    (h : raw = none ∨ raw = some none) :
    loadProgress raw now = initialProgress now ∧
    (loadProgress raw now).phase = some "invoices" ∧
    (loadProgress raw now).lastProcessedVisualId = none ∧
    (loadProgress raw now).invoicesProcessed = 0 ∧
    (loadProgress raw now).quotesProcessed = 0 ∧
    (loadProgress raw now).totalProductionFiles = 0 ∧
    (loadProgress raw now).totalLineItemMockups = 0 ∧
    (loadProgress raw now).totalImprintMockups = 0 ∧
    (loadProgress raw now).errors = 0 := by
  rcases h with h | h <;> subst h <;>
    exact ⟨rfl, rfl, rfl, rfl, rfl, rfl, rfl, rfl, rfl⟩

/-- Witness for C10 at an absent checkpoint file. -/
theorem C10_witness :
    loadProgress none "t0" = initialProgress "t0" ∧
    (loadProgress none "t0").phase = some "invoices" ∧
    (loadProgress none "t0").lastProcessedVisualId = none ∧
    (loadProgress none "t0").invoicesProcessed = 0 ∧
    (loadProgress none "t0").quotesProcessed = 0 ∧
    (loadProgress none "t0").totalProductionFiles = 0 ∧
    (loadProgress none "t0").totalLineItemMockups = 0 ∧
    (loadProgress none "t0").totalImprintMockups = 0 ∧
    (loadProgress none "t0").errors = 0 :=
  C10_corrupt_checkpoint none "t0" (Or.inl rfl)

end Printavo
